import Mathlib

/-!
Verification of the flight-delay dashboard (`src/app.py`).

The application is a single pandas/streamlit script: it loads a bounded
number of rows of a flights CSV restricted to five typed columns, drops
rows whose `DEPARTURE_DELAY` is missing, filters by a user-selected
airline and month, and derives five tables (monthly mean, daily trend,
top-5 airport counts, a day-by-airport mean pivot, and a two-column
projection for a scatter matrix).

Shallow embedding: a dataframe is a `List Row`.  The nullable pandas
dtypes (`Int64`, `string`, `float64` with NaN) are modelled with
`Option`; `DEPARTURE_DELAY` values are rationals so that the arithmetic
mean is exact.  Pandas operations are modelled by their semantics on
lists: boolean-mask filtering is `List.filter` (a missing value never
matches an equality comparison), `groupby` keeps one group per key
present, keys sorted ascending, and `mean` is the arithmetic mean of the
non-missing values of the group (undefined when there are none);
`value_counts` counts in first-appearance order and sorts descending by
count with a stable sort; `pivot` indexes cells by (row label, column
label) and leaves combinations without an underlying group undefined.
-/

/-- A flight record as loaded by `load_data`: the five columns
`MONTH, DAY, AIRLINE, ORIGIN_AIRPORT, DEPARTURE_DELAY` with their
declared dtypes (`Int64`, `Int64`, `string`, `string`, `float64`), each
of which is nullable in pandas, hence the `Option`s. -/
structure Row where
  month : Option Int
  day : Option Int
  airline : Option String
  origin_airport : Option String
  departure_delay : Option ℚ
deriving DecidableEq, Repr

/-- The five columns requested by `load_data` via `usecols`. -/
def requiredCols : List String :=
  ["MONTH", "DAY", "AIRLINE", "ORIGIN_AIRPORT", "DEPARTURE_DELAY"]

/-- The source the CSV reader sees: whether `flights.csv` exists and is
readable, which columns its header declares, and its parsed rows. -/
structure CsvSource where
  present : Bool
  readable : Bool
  columns : List String
  rows : List Row
deriving Repr

/-- `pd.read_csv("flights.csv", usecols=cols, nrows=nrows)`: raises if
the file is missing or unreadable or if a requested column is absent
from the header; otherwise yields the first `nrows` rows. -/
def read_csv (src : CsvSource) (usecols : List String) (nrows : Nat) :
    Except String (List Row) :=
  if src.present = false then .error "FileNotFoundError"
  else if src.readable = false then .error "OSError"
  else if usecols.any (fun c => decide (c ∉ src.columns)) then
    .error "ValueError: usecols do not match columns"
  else .ok (src.rows.take nrows)

/-- The row-retention step of `load_data`:
`df[df["DEPARTURE_DELAY"].notna()]` keeps exactly the rows whose delay
is present. -/
def dropnaDelay (df : List Row) : List Row :=
  df.filter (fun r => r.departure_delay.isSome)

/-- `load_data(nrows)` on an already-read row list: take at most `nrows`
rows and keep those with a present `DEPARTURE_DELAY`
(`src/app.py` lines 11-29, with the read itself factored into
`read_csv`). -/
def load_data (source : List Row) (nrows : Nat := 200000) : List Row :=
  dropnaDelay (source.take nrows)

/-- `load_data` including the CSV read: any reader error propagates
(the function body has no exception handler). -/
def load_dataE (src : CsvSource) (nrows : Nat := 200000) :
    Except String (List Row) :=
  (read_csv src requiredCols nrows).map dropnaDelay

/-- What a session shows: either the framework's error page for an
uncaught exception, or the dashboard built from the loaded data. -/
inductive AppOutcome where
  | errorPage (msg : String)
  | dashboard (df : List Row)
deriving DecidableEq, Repr

/-- Top of the script: `df = load_data()` runs with no `try/except`, so
a reader failure aborts the run before anything is rendered and is
displayed by the framework as an error. -/
def runScript (src : CsvSource) : AppOutcome :=
  match load_dataE src with
  | .error msg => .errorPage msg
  | .ok df => .dashboard df

/-- The filter stage
`filtered = df[(df["AIRLINE"] == airline) & (df["MONTH"] == month)]`
(`src/app.py` line 50): a boolean mask keeps the rows whose `AIRLINE`
equals the selected carrier and whose `MONTH` equals the selected month;
a missing value compares unequal. -/
def filtered (df : List Row) (airline : String) (month : Int) : List Row :=
  df.filter (fun r =>
    decide (r.airline = some airline) && decide (r.month = some month))

/-- Distinct values of a list in first-appearance order: the key order
produced by pandas hash-based counting before any sort. -/
def uniqueFirst {α : Type} [DecidableEq α] : List α → List α
  | [] => []
  | x :: xs => x :: (uniqueFirst xs).filter (fun y => decide (y ≠ x))

/-- The `DEPARTURE_DELAY` values present in a list of rows (pandas
aggregations skip missing values). -/
def delaysOf (rows : List Row) : List ℚ :=
  rows.filterMap (fun r => r.departure_delay)

/-- Pandas `mean` of the delay column of a group: the unweighted
arithmetic mean of the present values, undefined (NaN) when there are
none. -/
def meanDelay (rows : List Row) : Option ℚ :=
  let v := delaysOf rows
  if v.length = 0 then none else some (v.sum / v.length)

/-- The distinct `MONTH` keys of `df.groupby("MONTH")`: one key per
non-missing month present, sorted ascending (pandas `groupby`
sorts keys and drops missing keys). -/
def monthKeys (df : List Row) : List Int :=
  List.insertionSort (· ≤ ·) (uniqueFirst (df.filterMap (fun r => r.month)))

/-- The group of rows carrying month `m`. -/
def rowsWithMonth (df : List Row) (m : Int) : List Row :=
  df.filter (fun r => decide (r.month = some m))

/-- `monthly = df.groupby("MONTH", as_index=False).agg(retard_moyen=("DEPARTURE_DELAY","mean"))`
(`src/app.py` lines 58-62): one output row per distinct month, sorted
ascending, carrying the mean delay of that month's rows. -/
def monthly (df : List Row) : List (Int × Option ℚ) :=
  (monthKeys df).map (fun m => (m, meanDelay (rowsWithMonth df m)))

/-- The distinct `DAY` keys of `filtered.groupby("DAY")`, sorted
ascending. -/
def dayKeys (df : List Row) : List Int :=
  List.insertionSort (· ≤ ·) (uniqueFirst (df.filterMap (fun r => r.day)))

/-- The group of rows carrying day `d`. -/
def rowsWithDay (df : List Row) (d : Int) : List Row :=
  df.filter (fun r => decide (r.day = some d))

/-- `trend = filtered.groupby("DAY", as_index=False).agg(retard_moyen=("DEPARTURE_DELAY","mean"))`
(`src/app.py` lines 65-69). -/
def trend (f : List Row) : List (Int × Option ℚ) :=
  (dayKeys f).map (fun d => (d, meanDelay (rowsWithDay f d)))

/-- Descending-count comparison used to present `value_counts`: `p` may
come before `q` exactly when its count is at least `q`'s. -/
def countGE (p q : String × Nat) : Prop := q.2 ≤ p.2

instance : DecidableRel countGE := fun p q => by unfold countGE; infer_instance

instance : IsTotal (String × Nat) countGE :=
  ⟨fun p q => by unfold countGE; exact Nat.le_total q.2 p.2⟩

instance : IsTrans (String × Nat) countGE :=
  ⟨fun _ _ _ h h' => by unfold countGE at *; exact Nat.le_trans h' h⟩

/-- `pd.Series.value_counts()` of a list of airport codes: one entry per
distinct value with its number of occurrences, sorted descending by
count; the sort is stable over first-appearance order, so ties keep
appearance order. -/
def value_counts (xs : List String) : List (String × Nat) :=
  List.insertionSort countGE ((uniqueFirst xs).map (fun a => (a, xs.count a)))

/-- The airport codes of the filtered rows, missing values skipped
(`value_counts` drops NaN). -/
def airportsOf (f : List Row) : List String :=
  f.filterMap (fun r => r.origin_airport)

/-- `counts = filtered["ORIGIN_AIRPORT"].value_counts().nlargest(5)`
(`src/app.py` line 72): the first five entries of the descending
`value_counts`. -/
def counts (f : List Row) : List (String × Nat) :=
  (value_counts (airportsOf f)).take 5

/-- `top5_airports = counts.index.tolist()` (`src/app.py` line 73). -/
def top5_airports (f : List Row) : List String :=
  (counts f).map Prod.fst

/-- `df_top5 = filtered[filtered["ORIGIN_AIRPORT"].isin(top5_airports)]`
(`src/app.py` line 74); `isin` is false on a missing value. -/
def df_top5 (f : List Row) : List Row :=
  f.filter (fun r => (top5_airports f).any (fun a => decide (r.origin_airport = some a)))

/-- Lexicographic order on the (airport, day) pairs used by the
two-key `groupby`. -/
def pairLE (p q : String × Int) : Prop :=
  p.1 < q.1 ∨ (p.1 = q.1 ∧ p.2 ≤ q.2)

instance : DecidableRel pairLE := fun p q => by unfold pairLE; infer_instance

/-- The distinct (airport, day) keys of
`df_top5.groupby(["ORIGIN_AIRPORT","DAY"])`: one key per pair present
with both components non-missing, sorted lexicographically. -/
def heatKeys (rows : List Row) : List (String × Int) :=
  List.insertionSort pairLE
    (uniqueFirst (rows.filterMap (fun r =>
      match r.origin_airport, r.day with
      | some a, some d => some (a, d)
      | _, _ => none)))

/-- The group of rows carrying airport `a` and day `d`. -/
def rowsWithAirportDay (rows : List Row) (a : String) (d : Int) : List Row :=
  rows.filter (fun r =>
    decide (r.origin_airport = some a) && decide (r.day = some d))

/-- `heat = df_top5.groupby(["ORIGIN_AIRPORT","DAY"], as_index=False).agg(retard_moyen=("DEPARTURE_DELAY","mean"))`
(`src/app.py` lines 79-83): the long-format table, one row per
(airport, day) pair present. -/
def heat (rows : List Row) : List (String × Int × Option ℚ) :=
  (heatKeys rows).map (fun p => (p.1, p.2, meanDelay (rowsWithAirportDay rows p.1 p.2)))

/-- One cell of the pivoted table: the mean of the (airport, day) group
when that group exists in `heat`, undefined (NaN) otherwise. -/
def pivotCell (h : List (String × Int × Option ℚ)) (a : String) (d : Int) : Option ℚ :=
  match h.find? (fun t => decide (t.1 = a) && decide (t.2.1 = d)) with
  | some t => t.2.2
  | none => none

/-- A pivoted two-dimensional table: row labels, column labels and the
grid of cells, each cell possibly undefined. -/
structure PivotTable where
  rowLabels : List String
  colLabels : List Int
  cells : List (List (Option ℚ))
deriving DecidableEq, Repr

/-- `heat_pivot = heat.pivot(index="ORIGIN_AIRPORT", columns="DAY", values="retard_moyen")`
(`src/app.py` line 84): rows indexed by the distinct airports of `heat`,
columns by its distinct days, both sorted ascending; a cell with no
underlying `heat` row is left undefined, not zero. -/
def heat_pivot (rows : List Row) : PivotTable :=
  let h := heat rows
  let rls := List.insertionSort (· ≤ ·) (uniqueFirst ((heatKeys rows).map Prod.fst))
  let cls := List.insertionSort (· ≤ ·) (uniqueFirst ((heatKeys rows).map Prod.snd))
  { rowLabels := rls
    colLabels := cls
    cells := rls.map (fun a => cls.map (fun d => pivotCell h a d)) }

/-- `scatter_matrix_df = filtered[["DAY", "DEPARTURE_DELAY"]]`
(`src/app.py` line 88): the two-column projection of the filtered
subset, row order preserved. -/
def scatter_matrix_df (f : List Row) : List (Option Int × Option ℚ) :=
  f.map (fun r => (r.day, r.departure_delay))

/-- What the sixth tab does with its input. -/
inductive TabAction where
  | render
  | warnNoData
  | warnNotEnoughCols
deriving DecidableEq, Repr

/-- `df.empty` for a frame with `nrows` rows and `ncols` columns: true
when either axis has length zero. -/
def dfEmpty (nrows ncols : Nat) : Bool :=
  decide (nrows = 0) || decide (ncols = 0)

/-- The branch structure of the sixth tab (`src/app.py` lines 150-159):
plot when the frame is non-empty and has more than one column, warn
"no data" when it is empty, otherwise warn about insufficient
columns. -/
def scatterTab (nrows ncols : Nat) : TabAction :=
  if ¬ dfEmpty nrows ncols = true ∧ ncols > 1 then .render
  else if dfEmpty nrows ncols = true then .warnNoData
  else .warnNotEnoughCols

/-- The sixth tab as the script runs it: its input is
`scatter_matrix_df`, which always carries the two projected columns. -/
def scatterTabOnFiltered (f : List Row) : TabAction :=
  scatterTab (scatter_matrix_df f).length 2

/-- All the derived tables one rerun computes from the loaded data and
the current selection. -/
structure Derived where
  filteredRows : List Row
  monthlyTable : List (Int × Option ℚ)
  trendTable : List (Int × Option ℚ)
  countsTable : List (String × Nat)
  top5Rows : List Row
  heatPivot : PivotTable
  scatterDf : List (Option Int × Option ℚ)
deriving DecidableEq, Repr

/-- The pipeline exactly as written (`src/app.py` lines 50-88): the
assignment to `filtered` on line 50 is immediately overwritten by the
identical assignment on line 53, and every later table reads the second
binding. -/
def pipelineAsWritten (df : List Row) (airline : String) (month : Int) : Derived :=
  let filtered0 := filtered df airline month
  let filteredFinal := filtered df airline month
  let _ := filtered0
  { filteredRows := filteredFinal
    monthlyTable := monthly df
    trendTable := trend filteredFinal
    countsTable := counts filteredFinal
    top5Rows := df_top5 filteredFinal
    heatPivot := heat_pivot (df_top5 filteredFinal)
    scatterDf := scatter_matrix_df filteredFinal }

/-- The pipeline with the duplicate assignment on line 53 removed. -/
def pipelineSingle (df : List Row) (airline : String) (month : Int) : Derived :=
  let f := filtered df airline month
  { filteredRows := f
    monthlyTable := monthly df
    trendTable := trend f
    countsTable := counts f
    top5Rows := df_top5 f
    heatPivot := heat_pivot (df_top5 f)
    scatterDf := scatter_matrix_df f }

theorem mem_uniqueFirst {α : Type} [DecidableEq α] (a : α) :
    ∀ l : List α, a ∈ uniqueFirst l ↔ a ∈ l := by
  intro l
  induction l with
  | nil => simp [uniqueFirst]
  | cons x xs ih =>
    rw [uniqueFirst]
    by_cases hax : a = x
    · subst hax; simp
    · simp only [List.mem_cons, List.mem_filter, ih, decide_eq_true_eq]
      constructor
      · rintro (h | ⟨h, _⟩)
        · exact Or.inl h
        · exact Or.inr h
      · rintro (h | h)
        · exact Or.inl h
        · exact Or.inr ⟨h, hax⟩

theorem nodup_uniqueFirst {α : Type} [DecidableEq α] :
    ∀ l : List α, (uniqueFirst l).Nodup := by
  intro l
  induction l with
  | nil => simp [uniqueFirst]
  | cons x xs ih =>
    rw [uniqueFirst]
    refine List.nodup_cons.mpr ⟨?_, ih.filter _⟩
    intro hmem
    rw [List.mem_filter] at hmem
    simpa using hmem.2

theorem subset_uniqueFirst {α : Type} [DecidableEq α] (l : List α) :
    uniqueFirst l ⊆ l := fun a ha => (mem_uniqueFirst a l).mp ha

theorem toFinset_uniqueFirst {α : Type} [DecidableEq α] (l : List α) :
    (uniqueFirst l).toFinset = l.toFinset := by
  ext a
  simp [List.mem_toFinset, mem_uniqueFirst]

theorem length_uniqueFirst {α : Type} [DecidableEq α] (l : List α) :
    (uniqueFirst l).length = l.dedup.length := by
  rw [← List.toFinset_card_of_nodup (nodup_uniqueFirst l), toFinset_uniqueFirst,
    List.card_toFinset]

theorem mem_monthKeys (df : List Row) (m : Int) :
    m ∈ monthKeys df ↔ ∃ r ∈ df, r.month = some m := by
  rw [monthKeys, List.mem_insertionSort, mem_uniqueFirst, List.mem_filterMap]

theorem mem_dayKeys (f : List Row) (d : Int) :
    d ∈ dayKeys f ↔ ∃ r ∈ f, r.day = some d := by
  rw [dayKeys, List.mem_insertionSort, mem_uniqueFirst, List.mem_filterMap]

theorem mem_heatKeys (rows : List Row) (p : String × Int) :
    p ∈ heatKeys rows ↔
      ∃ r ∈ rows, r.origin_airport = some p.1 ∧ r.day = some p.2 := by
  rw [heatKeys, List.mem_insertionSort, mem_uniqueFirst, List.mem_filterMap]
  constructor
  · rintro ⟨r, hr, hp⟩
    refine ⟨r, hr, ?_⟩
    cases ha : r.origin_airport with
    | none => rw [ha] at hp; simp at hp
    | some a =>
      cases hd : r.day with
      | none => rw [ha, hd] at hp; simp at hp
      | some d =>
        rw [ha, hd] at hp
        simp only [Option.some.injEq] at hp
        rw [← hp]
        exact ⟨rfl, rfl⟩
  · rintro ⟨r, hr, ha, hd⟩
    exact ⟨r, hr, by rw [ha, hd]⟩

theorem nodup_monthKeys (df : List Row) : (monthKeys df).Nodup := by
  rw [monthKeys]
  exact (List.perm_insertionSort _ _).symm.nodup (nodup_uniqueFirst _)

theorem nodup_dayKeys (f : List Row) : (dayKeys f).Nodup := by
  rw [dayKeys]
  exact (List.perm_insertionSort _ _).symm.nodup (nodup_uniqueFirst _)

theorem nodup_heatKeys (rows : List Row) : (heatKeys rows).Nodup := by
  rw [heatKeys]
  exact (List.perm_insertionSort _ _).symm.nodup (nodup_uniqueFirst _)

theorem delaysOf_ne_nil (rows : List Row) (r : Row) (hr : r ∈ rows)
    (hd : r.departure_delay.isSome = true) : delaysOf rows ≠ [] := by
  obtain ⟨q, hq⟩ := Option.isSome_iff_exists.mp hd
  have : q ∈ delaysOf rows := List.mem_filterMap.mpr ⟨r, hr, hq⟩
  exact List.ne_nil_of_mem this

theorem meanDelay_eq (rows : List Row) (hne : delaysOf rows ≠ []) :
    meanDelay rows = some ((delaysOf rows).sum / (delaysOf rows).length) := by
  rw [meanDelay]
  simp only [List.length_eq_zero] at *
  rw [if_neg hne]

theorem meanDelay_isSome (rows : List Row) (r : Row) (hr : r ∈ rows)
    (hd : r.departure_delay.isSome = true) : (meanDelay rows).isSome := by
  rw [meanDelay_eq rows (delaysOf_ne_nil rows r hr hd)]
  rfl

theorem value_counts_perm (xs : List String) :
    (value_counts xs).Perm ((uniqueFirst xs).map (fun a => (a, xs.count a))) :=
  List.perm_insertionSort _ _

theorem mem_value_counts (xs : List String) (p : String × Nat) :
    p ∈ value_counts xs ↔ p.1 ∈ xs ∧ p.2 = xs.count p.1 := by
  rw [(value_counts_perm xs).mem_iff, List.mem_map]
  constructor
  · rintro ⟨a, ha, hp⟩
    rw [← hp]
    exact ⟨(mem_uniqueFirst a xs).mp ha, rfl⟩
  · rintro ⟨h1, h2⟩
    exact ⟨p.1, (mem_uniqueFirst p.1 xs).mpr h1, by rw [← h2]⟩

theorem nodup_value_counts_fst (xs : List String) :
    ((value_counts xs).map Prod.fst).Nodup := by
  have hperm : ((value_counts xs).map Prod.fst).Perm
      (((uniqueFirst xs).map (fun a => (a, xs.count a))).map Prod.fst) :=
    (value_counts_perm xs).map Prod.fst
  have : ((uniqueFirst xs).map (fun a => (a, xs.count a))).map Prod.fst = uniqueFirst xs := by
    rw [List.map_map]
    exact List.map_id'' (fun _ => rfl) _
  rw [this] at hperm
  exact hperm.symm.nodup (nodup_uniqueFirst xs)

theorem sorted_value_counts (xs : List String) :
    List.Sorted countGE (value_counts xs) :=
  List.sorted_insertionSort _ _

theorem counts_sublist (f : List Row) :
    List.Sublist (counts f) (value_counts (airportsOf f)) :=
  List.take_sublist _ _

theorem sorted_counts (f : List Row) : List.Sorted countGE (counts f) :=
  (sorted_value_counts (airportsOf f)).sublist (counts_sublist f)

theorem mem_counts (f : List Row) (p : String × Nat) (hp : p ∈ counts f) :
    p.1 ∈ airportsOf f ∧ p.2 = (airportsOf f).count p.1 :=
  (mem_value_counts (airportsOf f) p).mp ((counts_sublist f).subset hp)

theorem nodup_counts_fst (f : List Row) : ((counts f).map Prod.fst).Nodup := by
  rw [counts, List.map_take]
  exact (nodup_value_counts_fst (airportsOf f)).sublist (List.take_sublist _ _)

theorem nodup_top5 (f : List Row) : (top5_airports f).Nodup :=
  nodup_counts_fst f

theorem length_top5_le (f : List Row) : (top5_airports f).length ≤ 5 := by
  rw [top5_airports, List.length_map, counts]
  calc ((value_counts (airportsOf f)).take 5).length ≤ 5 := by
        rw [List.length_take]; exact Nat.min_le_left _ _

theorem mem_df_top5 (f : List Row) (r : Row) :
    r ∈ df_top5 f ↔ r ∈ f ∧ ∃ a ∈ top5_airports f, r.origin_airport = some a := by
  rw [df_top5, List.mem_filter]
  simp only [List.any_eq_true, decide_eq_true_eq]

theorem mem_heat (rows : List Row) (t : String × Int × Option ℚ) :
    t ∈ heat rows ↔
      ∃ p ∈ heatKeys rows,
        t = (p.1, p.2, meanDelay (rowsWithAirportDay rows p.1 p.2)) := by
  rw [heat, List.mem_map]
  constructor
  · rintro ⟨p, hp, ht⟩; exact ⟨p, hp, ht.symm⟩
  · rintro ⟨p, hp, ht⟩; exact ⟨p, hp, ht.symm⟩

theorem pivotCell_eq_of_mem (rows : List Row) (a : String) (d : Int)
    (hmem : (a, d) ∈ heatKeys rows) :
    pivotCell (heat rows) a d = meanDelay (rowsWithAirportDay rows a d) := by
  rw [pivotCell, heat, List.find?_map]
  have hsome : (List.find?
      ((fun t : String × Int × Option ℚ => decide (t.1 = a) && decide (t.2.1 = d)) ∘
        (fun p : String × Int =>
          (p.1, p.2, meanDelay (rowsWithAirportDay rows p.1 p.2))))
      (heatKeys rows)).isSome := by
    rw [List.find?_isSome]
    exact ⟨(a, d), hmem, by simp [Function.comp]⟩
  obtain ⟨q, hq⟩ := Option.isSome_iff_exists.mp hsome
  have hpq := List.find?_some hq
  simp only [Function.comp, Bool.and_eq_true, decide_eq_true_eq] at hpq
  rw [hq, Option.map_some']
  simp only [hpq.1, hpq.2]

theorem pivotCell_eq_none (rows : List Row) (a : String) (d : Int)
    (hmem : (a, d) ∉ heatKeys rows) :
    pivotCell (heat rows) a d = none := by
  rw [pivotCell]
  have hnone : List.find?
      (fun t : String × Int × Option ℚ => decide (t.1 = a) && decide (t.2.1 = d))
      (heat rows) = none := by
    rw [List.find?_eq_none]
    intro t ht hpred
    obtain ⟨p, hp, htp⟩ := (mem_heat rows t).mp ht
    simp only [Bool.and_eq_true, decide_eq_true_eq] at hpred
    rw [htp] at hpred
    simp only at hpred
    exact hmem (by rw [← hpred.1, ← hpred.2]; exact hp)
  rw [hnone]

theorem heat_pivot_rowLabels (rows : List Row) :
    (heat_pivot rows).rowLabels =
      List.insertionSort (· ≤ ·) (uniqueFirst ((heatKeys rows).map Prod.fst)) := rfl

theorem heat_pivot_colLabels (rows : List Row) :
    (heat_pivot rows).colLabels =
      List.insertionSort (· ≤ ·) (uniqueFirst ((heatKeys rows).map Prod.snd)) := rfl

theorem mem_rowLabels (rows : List Row) (a : String) :
    a ∈ (heat_pivot rows).rowLabels ↔
      ∃ r ∈ rows, r.origin_airport = some a ∧ r.day.isSome := by
  rw [heat_pivot_rowLabels, List.mem_insertionSort, mem_uniqueFirst, List.mem_map]
  constructor
  · rintro ⟨p, hp, hpa⟩
    obtain ⟨r, hr, h1, h2⟩ := (mem_heatKeys rows p).mp hp
    exact ⟨r, hr, by rw [← hpa]; exact h1, by rw [h2]; rfl⟩
  · rintro ⟨r, hr, ha, hd⟩
    obtain ⟨d, hd'⟩ := Option.isSome_iff_exists.mp hd
    exact ⟨(a, d), (mem_heatKeys rows (a, d)).mpr ⟨r, hr, ha, hd'⟩, rfl⟩

theorem mem_colLabels (rows : List Row) (d : Int) :
    d ∈ (heat_pivot rows).colLabels ↔
      ∃ r ∈ rows, r.day = some d ∧ r.origin_airport.isSome := by
  rw [heat_pivot_colLabels, List.mem_insertionSort, mem_uniqueFirst, List.mem_map]
  constructor
  · rintro ⟨p, hp, hpd⟩
    obtain ⟨r, hr, h1, h2⟩ := (mem_heatKeys rows p).mp hp
    exact ⟨r, hr, by rw [← hpd]; exact h2, by rw [h1]; rfl⟩
  · rintro ⟨r, hr, hd', ha⟩
    obtain ⟨a, ha'⟩ := Option.isSome_iff_exists.mp ha
    exact ⟨(a, d), (mem_heatKeys rows (a, d)).mpr ⟨r, hr, ha', hd'⟩, rfl⟩

theorem nodup_rowLabels (rows : List Row) : (heat_pivot rows).rowLabels.Nodup := by
  rw [heat_pivot_rowLabels]
  exact (List.perm_insertionSort _ _).symm.nodup (nodup_uniqueFirst _)

theorem rowLabels_subset_top5 (f : List Row) :
    (heat_pivot (df_top5 f)).rowLabels ⊆ top5_airports f := by
  intro a ha
  obtain ⟨r, hr, hra, _⟩ := (mem_rowLabels (df_top5 f) a).mp ha
  obtain ⟨_, a', ha', hra'⟩ := (mem_df_top5 f r).mp hr
  rw [hra] at hra'
  obtain rfl : a' = a := by injection hra'.symm
  exact ha'

theorem rowLabels_length_le (f : List Row) :
    (heat_pivot (df_top5 f)).rowLabels.length ≤ 5 := by
  have hsub : (heat_pivot (df_top5 f)).rowLabels.toFinset ⊆ (top5_airports f).toFinset := by
    intro x hx
    simp only [List.mem_toFinset] at *
    exact rowLabels_subset_top5 f hx
  calc (heat_pivot (df_top5 f)).rowLabels.length
      = (heat_pivot (df_top5 f)).rowLabels.toFinset.card :=
        (List.toFinset_card_of_nodup (nodup_rowLabels _)).symm
    _ ≤ (top5_airports f).toFinset.card := Finset.card_le_card hsub
    _ ≤ (top5_airports f).length := List.toFinset_card_le _
    _ ≤ 5 := length_top5_le f

theorem read_csv_error (src : CsvSource) (n : Nat)
    (hbad : src.present = false ∨ src.readable = false ∨
      ∃ c ∈ requiredCols, c ∉ src.columns) :
    ∃ msg, read_csv src requiredCols n = .error msg := by
  rw [read_csv]
  by_cases hp : src.present = false
  · rw [if_pos hp]; exact ⟨_, rfl⟩
  · rw [if_neg hp]
    by_cases hr2 : src.readable = false
    · rw [if_pos hr2]; exact ⟨_, rfl⟩
    · rw [if_neg hr2]
      have hc : ∃ c ∈ requiredCols, c ∉ src.columns := by
        rcases hbad with h | h | h
        · exact absurd h hp
        · exact absurd h hr2
        · exact h
      have hany : requiredCols.any (fun c => decide (c ∉ src.columns)) = true := by
        rw [List.any_eq_true]
        obtain ⟨c, hc1, hc2⟩ := hc
        exact ⟨c, hc1, by simpa using hc2⟩
      rw [if_pos hany]; exact ⟨_, rfl⟩

theorem load_dataE_error (src : CsvSource) (n : Nat)
    (hbad : src.present = false ∨ src.readable = false ∨
      ∃ c ∈ requiredCols, c ∉ src.columns) :
    ∃ msg, load_dataE src n = .error msg := by
  obtain ⟨msg, hmsg⟩ := read_csv_error src n hbad
  exact ⟨msg, by rw [load_dataE, hmsg]; rfl⟩

theorem load_data_delay_isSome (source : List Row) (n : Nat) :
    ∀ r ∈ load_data source n, r.departure_delay.isSome = true := by
  intro r hr
  rw [load_data, dropnaDelay, List.mem_filter] at hr
  exact hr.2

theorem filtered_subset (df : List Row) (c : String) (m : Int) :
    filtered df c m ⊆ df := (List.filter_sublist _).subset

theorem df_top5_subset (f : List Row) : df_top5 f ⊆ f :=
  (List.filter_sublist _).subset

theorem monthly_mean_isSome (df : List Row)
    (h : ∀ r ∈ df, r.departure_delay.isSome = true) :
    ∀ p ∈ monthly df, p.2.isSome = true := by
  intro p hp
  rw [monthly, List.mem_map] at hp
  obtain ⟨m, hm, hpm⟩ := hp
  obtain ⟨r, hr, hrm⟩ := (mem_monthKeys df m).mp hm
  have hrg : r ∈ rowsWithMonth df m := by
    rw [rowsWithMonth, List.mem_filter]
    exact ⟨hr, by simp [hrm]⟩
  rw [← hpm]
  exact meanDelay_isSome _ r hrg (h r hr)

theorem trend_mean_isSome (f : List Row)
    (h : ∀ r ∈ f, r.departure_delay.isSome = true) :
    ∀ p ∈ trend f, p.2.isSome = true := by
  intro p hp
  rw [trend, List.mem_map] at hp
  obtain ⟨d, hd, hpd⟩ := hp
  obtain ⟨r, hr, hrd⟩ := (mem_dayKeys f d).mp hd
  have hrg : r ∈ rowsWithDay f d := by
    rw [rowsWithDay, List.mem_filter]
    exact ⟨hr, by simp [hrd]⟩
  rw [← hpd]
  exact meanDelay_isSome _ r hrg (h r hr)

theorem heat_mean_isSome (rows : List Row)
    (h : ∀ r ∈ rows, r.departure_delay.isSome = true) :
    ∀ t ∈ heat rows, t.2.2.isSome = true := by
  intro t ht
  obtain ⟨p, hp, htp⟩ := (mem_heat rows t).mp ht
  obtain ⟨r, hr, hra, hrd⟩ := (mem_heatKeys rows p).mp hp
  have hrg : r ∈ rowsWithAirportDay rows p.1 p.2 := by
    rw [rowsWithAirportDay, List.mem_filter]
    exact ⟨hr, by simp [hra, hrd]⟩
  rw [htp]
  exact meanDelay_isSome _ r hrg (h r hr)

/-- Concrete flight records used to instantiate the theorems. -/
def rowA : Row := ⟨some 1, some 15, some "AA", some "JFK", some 10⟩

def rowB : Row := ⟨some 1, some 15, some "AA", some "LAX", some (-5)⟩

def rowC : Row := ⟨some 1, some 16, some "AA", some "JFK", some 20⟩

/-- A record whose delay is missing: dropped by `load_data`. -/
def rowD : Row := ⟨some 2, some 3, some "DL", some "ATL", none⟩

/-- A small concrete source dataset. -/
def sampleDf : List Row := [rowA, rowB, rowC, rowD]

/-- `sampleDf` after loading: the rows with a present delay. -/
def cleanDf : List Row := [rowA, rowB, rowC]

/-- C1: for every valid row cap `N`, `load_data` returns at most `N`
rows, drawn in order from the source (the five declared columns and
their types being the `Row` schema itself), every returned row has a
present (non-missing) `DEPARTURE_DELAY`, every capped source row with a
present delay is kept, and every capped source row with a missing delay
is dropped. -/
theorem load_data_spec (source : List Row) (n : Nat) :
    (load_data source n).length ≤ n ∧
    List.Sublist (load_data source n) source ∧
    (∀ r ∈ load_data source n, r.departure_delay.isSome = true) ∧
    (∀ r ∈ source.take n, r.departure_delay.isSome = true →
      r ∈ load_data source n) ∧
    (∀ r ∈ source.take n, r.departure_delay = none →
      r ∉ load_data source n) := by
  refine ⟨?_, ?_, load_data_delay_isSome source n, ?_, ?_⟩
  · calc (load_data source n).length ≤ (source.take n).length :=
          List.length_filter_le _ _
      _ ≤ n := by rw [List.length_take]; exact Nat.min_le_left _ _
  · exact (List.filter_sublist _).trans (List.take_sublist _ _)
  · intro r hr hd
    rw [load_data, dropnaDelay, List.mem_filter]
    exact ⟨hr, hd⟩
  · intro r _ hd hmem
    have := load_data_delay_isSome source n r hmem
    rw [hd] at this
    simp at this

/-- Closed instance of `load_data_spec`: on the sample source with cap
4, the row with a present delay is kept and the row with a missing
delay is dropped. -/
theorem load_data_spec_witness :
    rowA ∈ load_data sampleDf 4 ∧ rowD ∉ load_data sampleDf 4 :=
  ⟨(load_data_spec sampleDf 4).2.2.2.1 rowA (by decide) (by decide),
   (load_data_spec sampleDf 4).2.2.2.2 rowD (by decide) (by decide)⟩

/-- C2: the filter stage returns exactly the rows of the dataset whose
`AIRLINE` equals the chosen carrier and whose `MONTH` equals the chosen
month, in the dataset's original order (a sublist), with at most as
many rows as the dataset; the empty result is valid. -/
theorem filtered_spec (df : List Row) (c : String) (m : Int) :
    List.Sublist (filtered df c m) df ∧
    (∀ r, r ∈ filtered df c m ↔
      r ∈ df ∧ r.airline = some c ∧ r.month = some m) ∧
    (filtered df c m).length ≤ df.length ∧
    filtered ([] : List Row) c m = [] := by
  refine ⟨List.filter_sublist _, ?_, List.length_filter_le _ _, rfl⟩
  intro r
  rw [filtered, List.mem_filter]
  simp [and_assoc]

/-- Closed instance of `filtered_spec`: membership in a concrete
filtered subset in both directions. -/
theorem filtered_spec_witness :
    rowA ∈ filtered cleanDf "AA" 1 ∧ rowD ∉ filtered cleanDf "AA" 1 :=
  ⟨((filtered_spec cleanDf "AA" 1).2.1 rowA).mpr
      ⟨by decide, by decide, by decide⟩,
   fun hmem => by
      have h := ((filtered_spec cleanDf "AA" 1).2.1 rowD).mp hmem
      exact absurd h.1 (by decide)⟩

/-- C10: the duplicated assignment to `filtered` (lines 50 and 53 of
`src/app.py`) is a no-op: the pipeline as written computes exactly the
same filtered subset and derived tables as the pipeline with the second
assignment removed. -/
theorem pipeline_duplicate_noop (df : List Row) (c : String) (m : Int) :
    pipelineAsWritten df c m = pipelineSingle df c m := rfl

/-- C3: on a dataset whose rows all carry a present delay (as every
loaded dataset does), the monthly table has exactly one row per
distinct `MONTH` value present, is ordered ascending by month, and each
row's `retard_moyen` is the unweighted arithmetic mean of the
`DEPARTURE_DELAY` values of the rows with that month. -/
theorem monthly_spec (df : List Row)
    (h : ∀ r ∈ df, r.departure_delay.isSome = true) :
    ((monthly df).map Prod.fst).Nodup ∧
    List.Sorted (· ≤ ·) ((monthly df).map Prod.fst) ∧
    (∀ m : Int, m ∈ (monthly df).map Prod.fst ↔ ∃ r ∈ df, r.month = some m) ∧
    (∀ p ∈ monthly df,
      p.2 = some ((delaysOf (rowsWithMonth df p.1)).sum /
        ((delaysOf (rowsWithMonth df p.1)).length : ℚ))) := by
  have hmap : (monthly df).map Prod.fst = monthKeys df := by
    rw [monthly, List.map_map]
    exact List.map_id'' (fun _ => rfl) _
  refine ⟨?_, ?_, ?_, ?_⟩
  · rw [hmap]; exact nodup_monthKeys df
  · rw [hmap, monthKeys]; exact List.sorted_insertionSort _ _
  · intro m; rw [hmap]; exact mem_monthKeys df m
  · intro p hp
    rw [monthly, List.mem_map] at hp
    obtain ⟨m, hm, hpm⟩ := hp
    obtain ⟨r, hr, hrm⟩ := (mem_monthKeys df m).mp hm
    have hrg : r ∈ rowsWithMonth df m := by
      rw [rowsWithMonth, List.mem_filter]
      exact ⟨hr, by simp [hrm]⟩
    have hne := delaysOf_ne_nil (rowsWithMonth df m) r hrg (h r hr)
    rw [← hpm]
    simpa using meanDelay_eq (rowsWithMonth df m) hne

/-- Closed instance of `monthly_spec`: on the loaded sample data, month
1 appears in the monthly table, its table entry is the arithmetic mean
of that month's delays, and that mean evaluates to `25/3`, the average
of the three January delays `10, -5, 20`. -/
theorem monthly_spec_witness :
    (1 : Int) ∈ (monthly cleanDf).map Prod.fst ∧
    meanDelay (rowsWithMonth cleanDf 1) =
      some ((delaysOf (rowsWithMonth cleanDf 1)).sum /
        ((delaysOf (rowsWithMonth cleanDf 1)).length : ℚ)) ∧
    meanDelay (rowsWithMonth cleanDf 1) = some ((25 : ℚ)/3) :=
  ⟨((monthly_spec cleanDf (by decide)).2.2.1 1).mpr ⟨rowA, by decide, by decide⟩,
   (monthly_spec cleanDf (by decide)).2.2.2
      ((1 : Int), meanDelay (rowsWithMonth cleanDf 1))
      (List.mem_map.mpr ⟨1, by decide, rfl⟩),
   by norm_num [meanDelay, delaysOf, rowsWithMonth, cleanDf, rowA, rowB, rowC,
        List.filterMap_cons, List.filter_cons]⟩

/-- C6: on a filtered subset whose rows all carry a present delay (as
every subset of a loaded dataset does), the daily trend table has
exactly one row per distinct `DAY` value present in the subset, each
row's `retard_moyen` is the arithmetic mean of that day's delay values,
and an empty filtered subset yields a trend table with zero rows. -/
theorem trend_spec (f : List Row)
    (h : ∀ r ∈ f, r.departure_delay.isSome = true) :
    ((trend f).map Prod.fst).Nodup ∧
    (∀ d : Int, d ∈ (trend f).map Prod.fst ↔ ∃ r ∈ f, r.day = some d) ∧
    (∀ p ∈ trend f,
      p.2 = some ((delaysOf (rowsWithDay f p.1)).sum /
        ((delaysOf (rowsWithDay f p.1)).length : ℚ))) ∧
    (f = [] → trend f = []) := by
  have hmap : (trend f).map Prod.fst = dayKeys f := by
    rw [trend, List.map_map]
    exact List.map_id'' (fun _ => rfl) _
  refine ⟨?_, ?_, ?_, ?_⟩
  · rw [hmap]; exact nodup_dayKeys f
  · intro d; rw [hmap]; exact mem_dayKeys f d
  · intro p hp
    rw [trend, List.mem_map] at hp
    obtain ⟨d, hd, hpd⟩ := hp
    obtain ⟨r, hr, hrd⟩ := (mem_dayKeys f d).mp hd
    have hrg : r ∈ rowsWithDay f d := by
      rw [rowsWithDay, List.mem_filter]
      exact ⟨hr, by simp [hrd]⟩
    have hne := delaysOf_ne_nil (rowsWithDay f d) r hrg (h r hr)
    rw [← hpd]
    simpa using meanDelay_eq (rowsWithDay f d) hne
  · intro hf
    rw [hf]
    rfl

/-- Closed instance of `trend_spec`: on the concrete filtered subset,
day 15's trend entry is the arithmetic mean of that day's delays, that
mean evaluates to `5/2` (average of `10` and `-5`), and the empty
subset yields an empty trend table. -/
theorem trend_spec_witness :
    (meanDelay (rowsWithDay (filtered cleanDf "AA" 1) 15) =
      some ((delaysOf (rowsWithDay (filtered cleanDf "AA" 1) 15)).sum /
        ((delaysOf (rowsWithDay (filtered cleanDf "AA" 1) 15)).length : ℚ))) ∧
    meanDelay (rowsWithDay (filtered cleanDf "AA" 1) 15) = some ((5 : ℚ)/2) ∧
    trend ([] : List Row) = [] :=
  ⟨(trend_spec (filtered cleanDf "AA" 1) (by decide)).2.2.1
      ((15 : Int), meanDelay (rowsWithDay (filtered cleanDf "AA" 1) 15))
      (List.mem_map.mpr ⟨15, by decide, rfl⟩),
   by norm_num [meanDelay, delaysOf, rowsWithDay, filtered, cleanDf, rowA, rowB,
        rowC, List.filterMap_cons, List.filter_cons],
   (trend_spec ([] : List Row) (by decide)).2.2.2 rfl⟩

/-- C4: the top-5 airport table counts occurrences of each
`ORIGIN_AIRPORT` in the filtered subset, has `min 5 k` entries where
`k` is the number of distinct airports (so at most 5, fewer when fewer
airports exist), lists each airport at most once, and is sorted
descending by count (`countGE`); equal counts keep the stable order of
the underlying counting operation by construction of `value_counts`. -/
theorem counts_spec (f : List Row) :
    (counts f).length = min 5 ((airportsOf f).dedup).length ∧
    (∀ p ∈ counts f, p.1 ∈ airportsOf f ∧ p.2 = (airportsOf f).count p.1) ∧
    List.Sorted countGE (counts f) ∧
    ((counts f).map Prod.fst).Nodup := by
  refine ⟨?_, fun p hp => mem_counts f p hp, sorted_counts f, nodup_counts_fst f⟩
  rw [counts, List.length_take, value_counts, List.length_insertionSort,
    List.length_map, length_uniqueFirst]

/-- Closed instance of `counts_spec`: in the concrete filtered subset
the entry `("JFK", 2)` of the top-5 table carries the occurrence count
of `"JFK"`. -/
theorem counts_spec_witness :
    "JFK" ∈ airportsOf (filtered cleanDf "AA" 1) ∧
    2 = (airportsOf (filtered cleanDf "AA" 1)).count "JFK" :=
  (counts_spec (filtered cleanDf "AA" 1)).2.1 ("JFK", 2) (by decide)

/-- C5: the day-by-airport matrix is built from the filtered subset
restricted to the top-5 airports; it has at most 5 rows, its columns
are exactly days occurring in that restricted subset, a cell whose
(airport, day) group has an underlying row holds the group's mean
delay, a cell with no underlying rows is undefined (not zero), and the
grid is the pivot of those cells over the row and column labels. -/
theorem heat_pivot_spec (f : List Row) :
    (heat_pivot (df_top5 f)).rowLabels.length ≤ 5 ∧
    (∀ r, r ∈ df_top5 f ↔
      r ∈ f ∧ ∃ a ∈ top5_airports f, r.origin_airport = some a) ∧
    (∀ d ∈ (heat_pivot (df_top5 f)).colLabels,
      ∃ r ∈ df_top5 f, r.day = some d ∧ r.origin_airport.isSome = true) ∧
    (∀ (a : String) (d : Int),
      (∃ r ∈ df_top5 f, r.origin_airport = some a ∧ r.day = some d) →
      pivotCell (heat (df_top5 f)) a d =
        meanDelay (rowsWithAirportDay (df_top5 f) a d)) ∧
    (∀ (a : String) (d : Int),
      (∀ r ∈ df_top5 f, ¬(r.origin_airport = some a ∧ r.day = some d)) →
      pivotCell (heat (df_top5 f)) a d = none) ∧
    (heat_pivot (df_top5 f)).cells =
      (heat_pivot (df_top5 f)).rowLabels.map (fun a =>
        (heat_pivot (df_top5 f)).colLabels.map (fun d =>
          pivotCell (heat (df_top5 f)) a d)) := by
  refine ⟨rowLabels_length_le f, mem_df_top5 f, ?_, ?_, ?_, rfl⟩
  · intro d hd
    exact (mem_colLabels (df_top5 f) d).mp hd
  · intro a d hex
    refine pivotCell_eq_of_mem _ a d ?_
    rw [mem_heatKeys]
    obtain ⟨r, hr, h1, h2⟩ := hex
    exact ⟨r, hr, h1, h2⟩
  · intro a d hnone
    refine pivotCell_eq_none _ a d ?_
    intro hmem
    obtain ⟨r, hr, h1, h2⟩ := (mem_heatKeys (df_top5 f) (a, d)).mp hmem
    exact hnone r hr ⟨h1, h2⟩

/-- Closed instance of `heat_pivot_spec`: the concrete matrix has at
most 5 rows, and the cell for `("LAX", 16)`, which has no underlying
row, is undefined. -/
theorem heat_pivot_spec_witness :
    (heat_pivot (df_top5 (filtered cleanDf "AA" 1))).rowLabels.length ≤ 5 ∧
    pivotCell (heat (df_top5 (filtered cleanDf "AA" 1))) "LAX" 16 = none :=
  ⟨(heat_pivot_spec (filtered cleanDf "AA" 1)).1,
   (heat_pivot_spec (filtered cleanDf "AA" 1)).2.2.2.2.1 "LAX" 16 (by decide)⟩

/-- C7: the sixth tab plots exactly when its input frame is non-empty
and has at least two columns; an empty frame gets the "no data"
warning, and a non-empty frame with fewer than two columns — which,
the frame being non-empty, means exactly one column — gets the
insufficient-columns warning.  On the script's actual input
`scatter_matrix_df`, which always carries its two projected columns,
plotting happens exactly when the filtered subset is non-empty and the
empty subset produces the "no data" warning. -/
theorem scatterTab_spec (nrows ncols : Nat) :
    (scatterTab nrows ncols = .render ↔ 0 < nrows ∧ 2 ≤ ncols) ∧
    (nrows = 0 → scatterTab nrows ncols = .warnNoData) ∧
    (0 < nrows → ncols = 1 → scatterTab nrows ncols = .warnNotEnoughCols) ∧
    (∀ f : List Row, scatterTabOnFiltered f = .render ↔ f ≠ []) ∧
    (∀ f : List Row, f = [] → scatterTabOnFiltered f = .warnNoData) := by
  have hrender : ∀ nr nc : Nat, scatterTab nr nc = .render ↔ 0 < nr ∧ 2 ≤ nc := by
    intro nr nc
    rw [scatterTab]
    split_ifs with h1 h2
    · simp only [dfEmpty, Bool.or_eq_true, decide_eq_true_eq, not_or] at h1
      simp only [true_iff]
      exact ⟨Nat.pos_of_ne_zero h1.1.1, h1.2⟩
    · simp only [dfEmpty, Bool.or_eq_true, decide_eq_true_eq] at h2
      constructor
      · intro h; exact absurd h (by simp)
      · intro h
        rcases h2 with h0 | h0
        · omega
        · omega
    · simp only [dfEmpty, Bool.or_eq_true, decide_eq_true_eq, not_or, not_and,
        not_lt] at h1 h2
      constructor
      · intro h; exact absurd h (by simp)
      · intro h
        have := h1 (by simpa using h2)
        omega
  refine ⟨hrender nrows ncols, ?_, ?_, ?_, ?_⟩
  · intro h0
    subst h0
    rw [scatterTab]
    rw [if_neg (by simp [dfEmpty]), if_pos (by simp [dfEmpty])]
  · intro hpos h1
    subst h1
    rw [scatterTab]
    rw [if_neg (by simp), if_neg]
    simp [dfEmpty]
    omega
  · intro f
    rw [scatterTabOnFiltered, hrender]
    simp only [scatter_matrix_df, List.length_map]
    constructor
    · rintro ⟨h, _⟩
      exact List.ne_nil_of_length_pos h
    · intro h
      exact ⟨List.length_pos.mpr h, le_refl 2⟩
  · intro f hf
    subst hf
    rw [scatterTabOnFiltered]
    rw [scatterTab]
    rw [if_neg (by simp [dfEmpty, scatter_matrix_df]),
      if_pos (by simp [dfEmpty, scatter_matrix_df])]

/-- Closed instance of `scatterTab_spec`: an empty two-column frame
warns "no data", a three-row one-column frame warns about columns, and
the empty filtered subset warns "no data" through the script's own
projection. -/
theorem scatterTab_spec_witness :
    scatterTab 0 2 = TabAction.warnNoData ∧
    scatterTab 3 1 = TabAction.warnNotEnoughCols ∧
    scatterTabOnFiltered ([] : List Row) = TabAction.warnNoData :=
  ⟨(scatterTab_spec 0 2).2.1 rfl,
   (scatterTab_spec 3 1).2.2.1 (by decide) rfl,
   (scatterTab_spec 0 0).2.2.2.2 ([] : List Row) rfl⟩

/-- C8: when the source file is missing, unreadable, or lacking a
required column, the load step fails with an error rather than
returning any dataset (in particular never an empty one), and the
session shows the error page instead of a dashboard. -/
theorem load_error_spec (src : CsvSource) (n : Nat)
    (hbad : src.present = false ∨ src.readable = false ∨
      ∃ c ∈ requiredCols, c ∉ src.columns) :
    (∃ msg, load_dataE src n = .error msg) ∧
    (∀ rows, load_dataE src n ≠ .ok rows) ∧
    (∃ msg, runScript src = .errorPage msg) ∧
    (∀ d, runScript src ≠ .dashboard d) := by
  obtain ⟨msg, hmsg⟩ := load_dataE_error src n hbad
  obtain ⟨msg2, hmsg2⟩ := load_dataE_error src 200000 hbad
  refine ⟨⟨msg, hmsg⟩, ?_, ⟨msg2, ?_⟩, ?_⟩
  · intro rows hok
    rw [hmsg] at hok
    exact Except.noConfusion hok
  · simp only [runScript, hmsg2]
  · intro d hd
    simp only [runScript, hmsg2] at hd
    exact AppOutcome.noConfusion hd

/-- The source seen when `flights.csv` does not exist. -/
def missingSrc : CsvSource := ⟨false, true, requiredCols, []⟩

/-- Closed instance of `load_error_spec`: with the file missing, the
load never returns a dataset and no dashboard is shown. -/
theorem load_error_spec_witness :
    (∀ rows, load_dataE missingSrc 7 ≠ .ok rows) ∧
    (∀ d, runScript missingSrc ≠ .dashboard d) :=
  ⟨(load_error_spec missingSrc 7 (Or.inl rfl)).2.1,
   (load_error_spec missingSrc 7 (Or.inl rfl)).2.2.2⟩

/-- C9: every `retard_moyen` in the monthly table, the daily trend
table and the long-format heat table computed from a loaded dataset is
a present value: each group has at least one row and every loaded row
has a present delay, so missing values in derived output can only be
the absent cells the pivot introduces. -/
theorem derived_means_defined (source : List Row) (n : Nat) (c : String)
    (m : Int) :
    (∀ p ∈ monthly (load_data source n), p.2.isSome = true) ∧
    (∀ p ∈ trend (filtered (load_data source n) c m), p.2.isSome = true) ∧
    (∀ t ∈ heat (df_top5 (filtered (load_data source n) c m)),
      t.2.2.isSome = true) := by
  have hdf := load_data_delay_isSome source n
  have hf : ∀ r ∈ filtered (load_data source n) c m,
      r.departure_delay.isSome = true :=
    fun r hr => hdf r (filtered_subset _ _ _ hr)
  have ht5 : ∀ r ∈ df_top5 (filtered (load_data source n) c m),
      r.departure_delay.isSome = true :=
    fun r hr => hf r (df_top5_subset _ hr)
  exact ⟨monthly_mean_isSome _ hdf, trend_mean_isSome _ hf,
    heat_mean_isSome _ ht5⟩

/-- Closed instance of `derived_means_defined`: the mean for month 1 of
the loaded sample data is a present value. -/
theorem derived_means_defined_witness :
    (meanDelay (rowsWithMonth (load_data sampleDf 4) 1)).isSome = true :=
  (derived_means_defined sampleDf 4 "AA" 1).1
    ((1 : Int), meanDelay (rowsWithMonth (load_data sampleDf 4) 1))
    (List.mem_map.mpr ⟨1, by decide, rfl⟩)
